import Mathlib

/-!
Verification of the position-management state machine, decision logic and
store contract of the trading bot (src/strategy.py, src/data/models.py).

Machine floats of the Python source are modelled as exact rationals; a Python
exception is modelled as the error branch of an Except value; the mutable
attributes position_size and position_avg_price of TradingStrategy are
modelled as an explicit state record threaded through the operations.
-/

/-- Strategy configuration, set in TradingStrategy.__init__
(src/strategy.py lines 43-53). -/
structure Config where
  buy1_size : Rat
  buy2_size : Rat
  stop_loss_percent : Rat
  take_profit_percent : Rat
  buy2_offset : Rat
  immediate_exit_threshold : Rat
  rsi_length : Nat
  rsi_overbought : Rat
  rsi_oversold : Rat

/-- The literal values assigned by TradingStrategy.__init__:
buy1_size 40, buy2_size 7, stop_loss 3, take_profit 5, buy2_offset 4,
immediate_exit_threshold 2, rsi_length 14, overbought 67, oversold 33. -/
def defaultConfig : Config :=
  ⟨40, 7, 3, 5, 4, 2, 14, 67, 33⟩

/-- Position tracking state (src/strategy.py lines 78-79). -/
structure PState where
  position_size : Rat
  position_avg_price : Rat
deriving DecidableEq

/-- Initial position state set in __init__: position_size = 0,
position_avg_price = 0 (src/strategy.py lines 78-79). -/
def initialState : PState := ⟨0, 0⟩

/-- Entry signals returned by check_entry_conditions. -/
inductive EntrySignal where
  | buy1
  | buy2
deriving DecidableEq

/-- Exit signals returned by check_exit_conditions. -/
inductive ExitSignal where
  | immediate_exit
  | tp_sl
deriving DecidableEq

/-- Python list indexing candle[i]: out-of-range access raises IndexError. -/
def pyIndex (l : List Rat) (i : Nat) : Except String Rat :=
  match l.get? i with
  | some x => .ok x
  | none => .error "IndexError"

/-- Python list indexing xs[-1] on the result list: the last element,
raising IndexError on an empty list. -/
def pyLast {α : Type} (l : List α) : Except String α :=
  match l.getLast? with
  | some x => .ok x
  | none => .error "IndexError"

/-- get_historical_prices (src/strategy.py lines 81-98): queries
get_candlesticks and returns the element at index 5 of every candle in the
response data, in the order the exchange delivered them; any exception
(remote error or a malformed candle) is caught and the empty list returned.
The remote call is modelled by its result: an error, or the list of candles,
each candle a list of fields laid out per the exchange contract
[timestamp, open, high, low, close, volume]. -/
def get_historical_prices (resp : Except String (List (List Rat))) : List Rat :=
  match resp with
  | .error _ => []
  | .ok data =>
    match data.mapM (fun candle => pyIndex candle 5) with
    | .ok xs => xs
    | .error _ => []

/-- get_current_price (src/strategy.py lines 112-123): reads
ticker[data][0][last] with no try/except around it, so an error outcome of
the remote call (or an empty data array) propagates to the caller. The
ticker response is modelled as the list of last-price fields of its data
array. -/
def get_current_price (tickerResp : Except String (List Rat)) : Except String Rat :=
  match tickerResp with
  | .error e => .error e
  | .ok data => pyIndex data 0

/-- Column mapping used by the repository store itself
(src/data/models.py, bulk_insert_historical_data, lines 119-132):
candle[1] open, candle[2] high, candle[3] low, candle[4] close,
candle[5] volume. The close column of the stored row. -/
def storedClose (candle : List Rat) : Rat := candle.getD 4 0

/-- The volume column of the stored row: candle[5]
(src/data/models.py line 131). -/
def storedVolume (candle : List Rat) : Rat := candle.getD 5 0

/-- Modelled from the spec: insertion step of a sort of candles by ascending
timestamp (candle[0]), as required by recent_closes. -/
def insertByTs (c : List Rat) : List (List Rat) → List (List Rat)
  | [] => [c]
  | d :: ds => if c.getD 0 0 ≤ d.getD 0 0 then c :: d :: ds else d :: insertByTs c ds

/-- Modelled from the spec: candles sorted ascending by timestamp. -/
def sortByTs : List (List Rat) → List (List Rat)
  | [] => []
  | c :: cs => insertByTs c (sortByTs cs)

/-- Modelled from the spec: recent_closes returns the close prices
(candle[4] under the exchange layout) of the candles, ordered ascending by
time. Used only to compare the source implementation against the spec. -/
def recentClosesSpec (data : List (List Rat)) : List Rat :=
  (sortByTs data).map storedClose

/-- Positive price change of one step (a gain), as in the RSI recurrence. -/
def gainOf (c : Rat) : Rat := if 0 < c then c else 0

/-- Negative price change of one step (a loss), as in the RSI recurrence. -/
def lossOf (c : Rat) : Rat := if c < 0 then -c else 0

/-- One RSI output value from the smoothed average gain and loss, as TA-Lib
computes it: 100 * gain / (gain + loss), and 0 when both averages are 0. -/
def rsiOf (g l : Rat) : Rat := if g + l = 0 then 0 else 100 * g / (g + l)

/-- Wilder smoothing loop of TA-Lib RSI: each new average is
(previous * (period - 1) + current) / period, emitting one RSI value per
remaining price change. -/
def wilderRsis (period : Nat) : Rat → Rat → List Rat → List Rat
  | _, _, [] => []
  | g, l, c :: cs =>
    let g2 := (g * ((period : Rat) - 1) + gainOf c) / (period : Rat)
    let l2 := (l * ((period : Rat) - 1) + lossOf c) / (period : Rat)
    rsiOf g2 l2 :: wilderRsis period g2 l2 cs

/-- calculate_rsi (src/strategy.py lines 100-110), i.e. talib.RSI with
timeperiod = rsi_length. An undefined (NaN) output entry is modelled as
none. TA-Lib raises on an empty input array (its begin-index scan finds no
usable value); with fewer than period+1 inputs the whole output is NaN;
otherwise the first period entries are NaN, the first defined value comes
from the plain averages of the first period changes, and the rest from
Wilder smoothing. -/
def calculate_rsi (cfg : Config) (prices : List Rat) : Except String (List (Option Rat)) :=
  if prices.isEmpty then .error "inputs are all NaN"
  else
    let period := cfg.rsi_length
    if prices.length < period + 1 then .ok (List.replicate prices.length none)
    else
      let changes := List.zipWith (fun a b => a - b) prices.tail prices
      let g0 := ((changes.take period).map gainOf).sum / (period : Rat)
      let l0 := ((changes.take period).map lossOf).sum / (period : Rat)
      .ok (List.replicate period none ++
        (rsiOf g0 l0 :: wilderRsis period g0 l0 (changes.drop period)).map some)

/-- Lines 137-138 of check_entry_conditions: rsi_values = calculate_rsi(prices)
followed by current_rsi = rsi_values[-1]. -/
def currentRsi (cfg : Config) (prices : List Rat) : Except String (Option Rat) :=
  match calculate_rsi cfg prices with
  | .error e => .error e
  | .ok rsi_values => pyLast rsi_values

/-- Python comparison current_rsi < threshold where current_rsi may be NaN:
a NaN comparison is False. -/
def nanLt (a : Option Rat) (b : Rat) : Bool :=
  match a with
  | none => false
  | some x => decide (x < b)

/-- check_entry_conditions (src/strategy.py lines 125-149). The first branch
returns buy1 when the position is flat and the trailing RSI is strictly
below the oversold threshold; the second returns buy2 when position_size
equals buy1_size exactly and the current price strictly exceeds
avg_price * (1 + buy2_offset / 100); otherwise None. The indicator call and
the [-1] access may raise, which surfaces as the error branch. -/
def check_entry_conditions (cfg : Config) (st : PState) (prices : List Rat)
    (current_price : Rat) : Except String (Option EntrySignal) :=
  match currentRsi cfg prices with
  | .error e => .error e
  | .ok current_rsi =>
    if st.position_size = 0 ∧ nanLt current_rsi cfg.rsi_oversold = true then
      .ok (some .buy1)
    else if st.position_size = cfg.buy1_size ∧
        current_price > st.position_avg_price * (1 + cfg.buy2_offset / 100) then
      .ok (some .buy2)
    else
      .ok none

/-- check_exit_conditions (src/strategy.py lines 151-177). Returns None when
flat; otherwise immediate_exit when the current price is strictly below
avg_price * (1 - immediate_exit_threshold / 100), this check coming first;
otherwise tp_sl when the current price is at or below the stop-loss level or
at or above the take-profit level; otherwise None. The prices argument is
accepted but never read. -/
def check_exit_conditions (cfg : Config) (st : PState) (prices : List Rat)
    (current_price : Rat) : Option ExitSignal :=
  if st.position_size = 0 then none
  else if current_price < st.position_avg_price * (1 - cfg.immediate_exit_threshold / 100) then
    some .immediate_exit
  else
    let stop_loss_price := st.position_avg_price * (1 - cfg.stop_loss_percent / 100)
    let take_profit_price := st.position_avg_price * (1 + cfg.take_profit_percent / 100)
    if current_price ≤ stop_loss_price ∨ current_price ≥ take_profit_price then
      some .tp_sl
    else
      none

/-- The market order request assembled by enter_position and exit_position:
the side and size strings passed to place_order. -/
structure OrderReq where
  side : String
  sz : Rat
deriving DecidableEq

/-- enter_position (src/strategy.py lines 179-210). Inside one try block it
fetches the current price, places a market order, then updates the state by
position_size += size and position_avg_price = current_price (overwrite).
Any exception from either remote call is caught: the state is left unchanged
and None returned. The two remote calls are modelled by their outcomes. -/
def enter_position (st : PState) (priceResp : Except String Rat)
    (orderResp : Except String Unit) (side : String) (size : Rat) :
    PState × Option OrderReq :=
  match priceResp with
  | .error _ => (st, none)
  | .ok current_price =>
    match orderResp with
    | .error _ => (st, none)
    | .ok _ => (⟨st.position_size + size, current_price⟩, some ⟨side, size⟩)

/-- exit_position (src/strategy.py lines 212-241). Side is sell when the
position size is positive, else buy; a market order for the whole
position_size is placed, then the state is reset to size 0, avg_price 0.
An exception from the order call is caught: state unchanged, None returned. -/
def exit_position (st : PState) (orderResp : Except String Unit) :
    PState × Option OrderReq :=
  let side := if 0 < st.position_size then "sell" else "buy"
  match orderResp with
  | .error _ => (st, none)
  | .ok _ => (⟨0, 0⟩, some ⟨side, st.position_size⟩)

/-- The position invariant of the spec: flat if and only if no cost basis. -/
def positionInv (st : PState) : Prop :=
  st.position_size = 0 ↔ st.position_avg_price = 0

/-- One state-mutating operation of the strategy, with the outcomes of its
remote calls: an entry (price fetch outcome, order outcome, side, size) or
an exit (order outcome). -/
inductive StratOp where
  | enter (priceResp : Except String Rat) (orderResp : Except String Unit)
      (side : String) (size : Rat)
  | exitOp (orderResp : Except String Unit)

/-- Effect of one operation on the position state. -/
def stepOp (st : PState) : StratOp → PState
  | .enter pr od side size => (enter_position st pr od side size).1
  | .exitOp od => (exit_position st od).1

/-- State after running a sequence of operations from a start state. -/
def runOps (st : PState) (ops : List StratOp) : PState :=
  ops.foldl stepOp st

/-- Precondition on a fetched price: when the fetch succeeds the price is
strictly positive. -/
def priceOkB : Except String Rat → Bool
  | .ok p => decide (0 < p)
  | .error _ => true

/-- Precondition on an operation: every entry size is strictly positive and
every successfully fetched current price is strictly positive. -/
def validOpB : StratOp → Bool
  | .enter pr _ _ size => decide (0 < size) && priceOkB pr
  | .exitOp _ => true

/-- A row of the strategy_signals table
(src/data/models.py, create_strategy_signals_table, lines 47-62): columns
symbol (NOT NULL), timestamp (NOT NULL), signal (NOT NULL), primary key
(symbol, timestamp). A missing value is NULL, modelled as none. -/
structure SignalRow where
  symbol : Option String
  timestamp : Int
  signal : String
deriving DecidableEq

/-- SQLite INSERT OR REPLACE into strategy_signals: a NULL value for the
NOT NULL symbol column makes the statement fail with a constraint error;
otherwise rows with the same primary key (symbol, timestamp) are replaced
and the new row appended. -/
def sqlInsertOrReplaceSignal (tbl : List SignalRow) (row : SignalRow) :
    Except String (List SignalRow) :=
  if row.symbol = none then
    .error "NOT NULL constraint failed: strategy_signals.symbol"
  else
    .ok ((tbl.filter (fun r =>
      !(r.symbol == row.symbol && r.timestamp == row.timestamp))) ++ [row])

/-- insert_signal (src/data/models.py lines 64-72): the method takes only
timestamp and signal, and its INSERT OR REPLACE names only the columns
(timestamp, signal), so the NOT NULL symbol column receives NULL. -/
def insert_signal (tbl : List SignalRow) (timestamp : Int) (signal : String) :
    Except String (List SignalRow) :=
  sqlInsertOrReplaceSignal tbl ⟨none, timestamp, signal⟩

/-! Helper lemmas shared by the claim theorems. -/

/-- On a nonempty price list, calculate_rsi succeeds and its output list is
nonempty. -/
theorem calculate_rsi_ok_of_ne_nil (cfg : Config) (prices : List Rat) (h : prices ≠ []) :
    ∃ vs, calculate_rsi cfg prices = .ok vs ∧ vs ≠ [] := by
  unfold calculate_rsi
  have hE : prices.isEmpty = false := by
    simpa [List.isEmpty_iff] using h
  rw [hE]
  simp only [Bool.false_eq_true, if_false]
  by_cases hlen : prices.length < cfg.rsi_length + 1
  · rw [if_pos hlen]
    refine ⟨_, rfl, ?_⟩
    have hz : prices.length ≠ 0 := by simpa [List.length_eq_zero] using h
    simp [hz]
  · rw [if_neg hlen]
    exact ⟨_, rfl, by simp⟩

/-- On a nonempty price list, the trailing RSI read rsi_values[-1] succeeds. -/
theorem currentRsi_ok_of_ne_nil (cfg : Config) (prices : List Rat) (h : prices ≠ []) :
    ∃ v, currentRsi cfg prices = .ok v := by
  obtain ⟨vs, hvs, hne⟩ := calculate_rsi_ok_of_ne_nil cfg prices h
  cases hlast : vs.getLast? with
  | none => exact absurd (List.getLast?_eq_none_iff.mp hlast) hne
  | some v =>
    refine ⟨v, ?_⟩
    unfold currentRsi
    rw [hvs]
    show pyLast vs = .ok v
    unfold pyLast
    rw [hlast]

/-- When the trailing RSI read succeeds, check_entry_conditions is the
two-branch conditional of the source. -/
theorem check_entry_eq (cfg : Config) (st : PState) (prices : List Rat)
    (price : Rat) (v : Option Rat) (hv : currentRsi cfg prices = .ok v) :
    check_entry_conditions cfg st prices price =
      if st.position_size = 0 ∧ nanLt v cfg.rsi_oversold = true then .ok (some .buy1)
      else if st.position_size = cfg.buy1_size ∧
          price > st.position_avg_price * (1 + cfg.buy2_offset / 100) then .ok (some .buy2)
      else .ok none := by
  unfold check_entry_conditions
  rw [hv]

/-- A valid operation applied to a state with nonnegative size satisfying the
position invariant yields such a state again. -/
theorem stepOp_preserves (st : PState) (op : StratOp) (hop : validOpB op = true)
    (h : 0 ≤ st.position_size ∧ positionInv st) :
    0 ≤ (stepOp st op).position_size ∧ positionInv (stepOp st op) := by
  cases op with
  | enter pr od side size =>
    cases pr with
    | error e => exact h
    | ok p =>
      cases od with
      | error e => exact h
      | ok u =>
        have hsize : (0 : Rat) < size := by
          have hh := hop
          simp [validOpB, priceOkB] at hh
          exact hh.1
        have hp : (0 : Rat) < p := by
          have hh := hop
          simp [validOpB, priceOkB] at hh
          exact hh.2
        have hpos : 0 < st.position_size + size := by
          have h1 := h.1
          linarith
        constructor
        · exact le_of_lt hpos
        · show st.position_size + size = 0 ↔ p = 0
          constructor
          · intro h0
            exact absurd h0 (ne_of_gt hpos)
          · intro h0
            exact absurd h0 (ne_of_gt hp)
  | exitOp od =>
    cases od with
    | error e => exact h
    | ok u =>
      exact ⟨le_refl 0, Iff.rfl⟩

/-- Running any sequence of valid operations preserves nonnegative size and
the position invariant. -/
theorem runOps_preserves (ops : List StratOp) (st : PState)
    (h : ∀ op ∈ ops, validOpB op = true)
    (hst : 0 ≤ st.position_size ∧ positionInv st) :
    0 ≤ (runOps st ops).position_size ∧ positionInv (runOps st ops) := by
  induction ops generalizing st with
  | nil => exact hst
  | cons op ops ih =>
    have h1 : validOpB op = true := h op (List.mem_cons_self op ops)
    have h2 : ∀ o ∈ ops, validOpB o = true := fun o ho => h o (List.mem_cons_of_mem op ho)
    exact ih (stepOp st op) h2 (stepOp_preserves st op h1 hst)

/-! The claim theorems. -/

/-- Claim C1 (refuted as stated, against the code): get_historical_prices does
not return the close prices ascending by time. On the exchange response
holding the newer candle [ts 2000, open 10, high 12, low 9, close 11,
volume 500] before the older candle [ts 1000, open 8, high 11, low 7,
close 10, volume 300], the code returns [500, 300] - the volume column of
each candle, under the column layout the repository itself uses in
bulk_insert_historical_data, and in exchange (newest-first) order - whereas
the close prices ascending by time are [10, 11]. -/
theorem c1_historical_prices_not_closes :
    get_historical_prices
      (.ok [[2000,10,12,9,11,500],[1000,8,11,7,10,300]]) = [500, 300] ∧
    ([[2000,10,12,9,11,500],[1000,8,11,7,10,300]] : List (List Rat)).map storedVolume
      = [500, 300] ∧
    recentClosesSpec [[2000,10,12,9,11,500],[1000,8,11,7,10,300]] = [10, 11] ∧
    get_historical_prices
      (.ok [[2000,10,12,9,11,500],[1000,8,11,7,10,300]]) ≠
      recentClosesSpec [[2000,10,12,9,11,500],[1000,8,11,7,10,300]] := by
  refine ⟨rfl, rfl, rfl, ?_⟩
  intro h
  rw [show recentClosesSpec [[2000,10,12,9,11,500],[1000,8,11,7,10,300]]
      = [10, 11] from rfl] at h
  rw [show get_historical_prices
      (.ok [[2000,10,12,9,11,500],[1000,8,11,7,10,300]]) = [500, 300] from rfl] at h
  exact absurd h (by decide)

/-- Claim C2: from a flat position, check_entry_conditions returns buy1
exactly when the trailing RSI value is strictly below the oversold
threshold 33; when it is not strictly below (including an undefined NaN
value), no signal is returned from the flat state; and a successful buy1
entry of size 40 at the current price makes the position
{size 40, avg_price current_price}. -/
theorem c2_flat_entry_buy1 (st : PState) (prices : List Rat) (price r : Rat)
    (hflat : st.position_size = 0) :
    (currentRsi defaultConfig prices = .ok (some r) → r < 33 →
      check_entry_conditions defaultConfig st prices price = .ok (some .buy1)) ∧
    (∀ v, currentRsi defaultConfig prices = .ok v → nanLt v 33 = false →
      check_entry_conditions defaultConfig st prices price = .ok none) ∧
    (enter_position st (.ok price) (.ok ()) "buy" 40).1 = ⟨40, price⟩ := by
  refine ⟨?_, ?_, ?_⟩
  · intro hv hr
    rw [check_entry_eq _ _ _ _ _ hv]
    have hn : nanLt (some r) defaultConfig.rsi_oversold = true := by
      show decide (r < 33) = true
      simpa using hr
    rw [if_pos ⟨hflat, hn⟩]
  · intro v hv hnan
    rw [check_entry_eq _ _ _ _ _ hv]
    have hc1 : ¬(st.position_size = 0 ∧ nanLt v defaultConfig.rsi_oversold = true) := by
      rintro ⟨-, h2⟩
      have h3 : nanLt v (33 : Rat) = true := h2
      rw [hnan] at h3
      cases h3
    have hc2 : ¬(st.position_size = defaultConfig.buy1_size ∧
        price > st.position_avg_price * (1 + defaultConfig.buy2_offset / 100)) := by
      rintro ⟨h1, -⟩
      rw [hflat] at h1
      norm_num [defaultConfig] at h1
    rw [if_neg hc1, if_neg hc2]
  · simp [enter_position, hflat]

/-- Witness for C2: a flat position, a 15-candle strictly falling history
whose trailing RSI is 0 < 33, current price 101: signal buy1, and the
executed entry yields {40, 101}. -/
theorem c2_flat_entry_buy1_witness :
    check_entry_conditions defaultConfig ⟨0, 0⟩
      [100,99,98,97,96,95,94,93,92,91,90,89,88,87,86] 101 = .ok (some .buy1) ∧
    (enter_position ⟨0, 0⟩ (.ok 101) (.ok ()) "buy" 40).1 = ⟨40, 101⟩ := by
  have h := c2_flat_entry_buy1 ⟨0, 0⟩
    [100,99,98,97,96,95,94,93,92,91,90,89,88,87,86] 101 0 rfl
  refine ⟨h.1 ?_ (by norm_num), h.2.2⟩
  norm_num [currentRsi, calculate_rsi, defaultConfig, wilderRsis, rsiOf,
    gainOf, lossOf, pyLast]

/-- Claim C3: with a usable (nonempty) price history, check_entry_conditions
returns buy2 exactly when position_size equals the first-entry size 40 and
the current price strictly exceeds avg_price * (1 + 4/100); and from the
post-second-tranche size 47 no entry signal of any kind is produced. -/
theorem c3_second_tranche_buy2 (st : PState) (prices : List Rat) (price : Rat)
    (hne : prices ≠ []) :
    (check_entry_conditions defaultConfig st prices price = .ok (some .buy2) ↔
      (st.position_size = 40 ∧ price > st.position_avg_price * (1 + 4 / 100))) ∧
    (st.position_size = 47 →
      check_entry_conditions defaultConfig st prices price = .ok none) := by
  obtain ⟨v, hv⟩ := currentRsi_ok_of_ne_nil defaultConfig prices hne
  rw [check_entry_eq _ _ _ _ _ hv]
  have e1 : defaultConfig.buy1_size = 40 := rfl
  have e2 : defaultConfig.buy2_offset = 4 := rfl
  rw [e1, e2]
  constructor
  · by_cases hc1 : st.position_size = 0 ∧ nanLt v defaultConfig.rsi_oversold = true
    · rw [if_pos hc1]
      constructor
      · intro h
        exact absurd h (by simp)
      · rintro ⟨h40, -⟩
        rw [h40] at hc1
        norm_num at hc1
    · rw [if_neg hc1]
      by_cases hc2 : st.position_size = 40 ∧
          price > st.position_avg_price * (1 + 4 / 100)
      · rw [if_pos hc2]
        simp [hc2]
      · rw [if_neg hc2]
        simp [hc2]
  · intro h47
    have hc1 : ¬(st.position_size = 0 ∧ nanLt v defaultConfig.rsi_oversold = true) := by
      rintro ⟨h0, -⟩
      rw [h47] at h0
      norm_num at h0
    have hc2 : ¬(st.position_size = 40 ∧
        price > st.position_avg_price * (1 + 4 / 100)) := by
      rintro ⟨h0, -⟩
      rw [h47] at h0
      norm_num at h0
    rw [if_neg hc1, if_neg hc2]

/-- Witness for C3: position {40, 100} and price 105 > 104 yield buy2; from
size 47 the same inputs yield no signal. -/
theorem c3_second_tranche_buy2_witness :
    check_entry_conditions defaultConfig ⟨40, 100⟩ [1] 105 = .ok (some .buy2) ∧
    check_entry_conditions defaultConfig ⟨47, 100⟩ [1] 105 = .ok none := by
  refine ⟨(c3_second_tranche_buy2 ⟨40, 100⟩ [1] 105 (by decide)).1.mpr
      ⟨rfl, by norm_num⟩,
    (c3_second_tranche_buy2 ⟨47, 100⟩ [1] 105 (by decide)).2 rfl⟩

/-- Claim C4: with a nonzero position, immediate_exit fires whenever the
price is strictly below avg_price * (1 - immediate_exit_threshold/100) and
takes priority; otherwise tp_sl fires exactly when the price is at or below
the stop-loss level or at or above the take-profit level; a price below both
the immediate-exit level and the stop-loss level yields immediate_exit, not
tp_sl. -/
theorem c4_exit_priority (cfg : Config) (st : PState) (prices : List Rat) (price : Rat)
    (hsz : st.position_size ≠ 0) :
    (price < st.position_avg_price * (1 - cfg.immediate_exit_threshold / 100) →
      check_exit_conditions cfg st prices price = some .immediate_exit) ∧
    (¬ price < st.position_avg_price * (1 - cfg.immediate_exit_threshold / 100) →
      (check_exit_conditions cfg st prices price = some .tp_sl ↔
        (price ≤ st.position_avg_price * (1 - cfg.stop_loss_percent / 100) ∨
         price ≥ st.position_avg_price * (1 + cfg.take_profit_percent / 100)))) ∧
    (price < st.position_avg_price * (1 - cfg.immediate_exit_threshold / 100) →
     price ≤ st.position_avg_price * (1 - cfg.stop_loss_percent / 100) →
      check_exit_conditions cfg st prices price = some .immediate_exit ∧
      check_exit_conditions cfg st prices price ≠ some .tp_sl) := by
  refine ⟨?_, ?_, ?_⟩
  · intro hie
    simp [check_exit_conditions, hsz, hie]
  · intro hie
    unfold check_exit_conditions
    rw [if_neg hsz, if_neg hie]
    by_cases hts : price ≤ st.position_avg_price * (1 - cfg.stop_loss_percent / 100) ∨
        price ≥ st.position_avg_price * (1 + cfg.take_profit_percent / 100)
    · rw [if_pos hts]
      simp [hts]
    · rw [if_neg hts]
      simp [hts]
  · intro hie _
    refine ⟨by simp [check_exit_conditions, hsz, hie], ?_⟩
    simp [check_exit_conditions, hsz, hie]

/-- Witness for C4: the precedence scenario of the spec - position
{40, 100}, immediate-exit level 98, price 97: immediate_exit, not tp_sl. -/
theorem c4_exit_priority_witness :
    (⟨40, 100⟩ : PState).position_size ≠ 0 ∧
    check_exit_conditions defaultConfig ⟨40, 100⟩ [] 97 = some .immediate_exit := by
  refine ⟨by norm_num, ?_⟩
  exact (c4_exit_priority defaultConfig ⟨40, 100⟩ [] 97 (by norm_num)).1
    (by norm_num [defaultConfig])

/-- Claim C5: a successful exit from any nonzero position resets the
position to {size 0, avg_price 0}, and the order it places is for the whole
position size - exits are always full-position closes. -/
theorem c5_exit_full_close (st : PState) (_hsz : st.position_size ≠ 0) :
    (exit_position st (.ok ())).1 = ⟨0, 0⟩ ∧
    (exit_position st (.ok ())).2 =
      some ⟨if 0 < st.position_size then "sell" else "buy", st.position_size⟩ :=
  ⟨rfl, rfl⟩

/-- Witness for C5: the stop-loss scenario position {40, 100} resets to
{0, 0} after a successful exit order. -/
theorem c5_exit_full_close_witness :
    (⟨40, 100⟩ : PState).position_size ≠ 0 ∧
    (exit_position ⟨40, 100⟩ (.ok ())).1 = ⟨0, 0⟩ :=
  ⟨by norm_num, (c5_exit_full_close ⟨40, 100⟩ (by norm_num)).1⟩

/-- Claim C6 counterexample: on the empty price history the decision check
does not return None - the indicator computation raises (TA-Lib rejects an
empty array; the rsi_values[-1] read would equally raise), so
check_entry_conditions surfaces an error instead of the no-signal result
the claim states. -/
theorem c6_empty_history_raises :
    check_entry_conditions defaultConfig initialState [] 100 =
      .error "inputs are all NaN" ∧
    check_entry_conditions defaultConfig initialState [] 100 ≠ .ok none :=
  ⟨rfl, fun h => Except.noConfusion h⟩

/-- Claim C6 as amended: for every nonempty price history with fewer than
period+1 elements, calculate_rsi returns the all-undefined (NaN) sequence
and check_entry_conditions from a flat position returns None rather than
raising; only the empty history makes the decision check raise. -/
theorem c6_short_history_no_signal (st : PState) (prices : List Rat) (price : Rat)
    (hflat : st.position_size = 0) (hne : prices ≠ [])
    (hshort : prices.length < defaultConfig.rsi_length + 1) :
    calculate_rsi defaultConfig prices = .ok (List.replicate prices.length none) ∧
    check_entry_conditions defaultConfig st prices price = .ok none := by
  have hE : prices.isEmpty = false := by simpa [List.isEmpty_iff] using hne
  have hcal : calculate_rsi defaultConfig prices =
      .ok (List.replicate prices.length none) := by
    unfold calculate_rsi
    rw [hE]
    simp only [Bool.false_eq_true, if_false]
    rw [if_pos hshort]
  refine ⟨hcal, ?_⟩
  have hlen : prices.length ≠ 0 := by simpa [List.length_eq_zero] using hne
  have hlast : (List.replicate prices.length (none : Option Rat)).getLast? =
      some none := by
    cases hn : prices.length with
    | zero => exact absurd hn hlen
    | succ k =>
      have hrep : List.replicate (k + 1) (none : Option Rat) =
          List.replicate k none ++ [none] := by
        simp [List.replicate_succ']
      simp [hrep]
  have hcur : currentRsi defaultConfig prices = .ok none := by
    unfold currentRsi
    rw [hcal]
    show pyLast (List.replicate prices.length (none : Option Rat)) = .ok none
    unfold pyLast
    rw [hlast]
  rw [check_entry_eq _ _ _ _ _ hcur]
  have hc1 : ¬(st.position_size = 0 ∧ nanLt none defaultConfig.rsi_oversold = true) := by
    rintro ⟨-, h2⟩
    cases h2
  have hc2 : ¬(st.position_size = defaultConfig.buy1_size ∧
      price > st.position_avg_price * (1 + defaultConfig.buy2_offset / 100)) := by
    rintro ⟨h1, -⟩
    rw [hflat] at h1
    norm_num [defaultConfig] at h1
  rw [if_neg hc1, if_neg hc2]

/-- Witness for C6 (amended): the three-element history [1, 2, 3] is shorter
than period+1 = 15; the RSI output is all NaN and the flat-state decision is
None. -/
theorem c6_short_history_no_signal_witness :
    calculate_rsi defaultConfig [1, 2, 3] =
      .ok (List.replicate ([1, 2, 3] : List Rat).length none) ∧
    check_entry_conditions defaultConfig ⟨0, 0⟩ [1, 2, 3] 100 = .ok none :=
  c6_short_history_no_signal ⟨0, 0⟩ [1, 2, 3] 100 rfl (by decide) (by decide)

/-- Claim C7 counterexample: a remote error during get_current_price is not
caught inside the operation - the error propagates to the caller instead of
surfacing as an empty/None result. -/
theorem c7_current_price_error_propagates :
    get_current_price (.error "connection reset") = .error "connection reset" ∧
    ∀ p, get_current_price (.error "connection reset") ≠ .ok p :=
  ⟨rfl, fun _ h => Except.noConfusion h⟩

/-- Claim C7 as amended: of the two PriceFeed reads, only
get_historical_prices catches remote errors (returning the empty list);
get_current_price propagates every remote error to its caller. -/
theorem c7_degrade_split (e : String) :
    get_historical_prices (.error e) = [] ∧
    get_current_price (.error e) = .error e :=
  ⟨rfl, rfl⟩

/-- Witness for C7 (amended): a concrete remote failure message. -/
theorem c7_degrade_split_witness :
    get_historical_prices (.error "timeout") = [] ∧
    get_current_price (.error "timeout") = .error "timeout" :=
  c7_degrade_split "timeout"

/-- Claim C8 (refuted, against the code): insert_signal can never succeed,
let alone store the symbol: the method takes no symbol argument and its
INSERT OR REPLACE names only the (timestamp, signal) columns, so the
NOT NULL symbol column of strategy_signals receives NULL and SQLite rejects
every write with a constraint error. -/
theorem c8_insert_signal_always_fails :
    insert_signal [] 1700000000 "buy" =
      .error "NOT NULL constraint failed: strategy_signals.symbol" ∧
    (∀ tbl ts sig, insert_signal tbl ts sig =
      .error "NOT NULL constraint failed: strategy_signals.symbol") :=
  ⟨rfl, fun _ _ _ => rfl⟩

/-- Claim C9: the position invariant size = 0 iff avg_price = 0 holds in the
initial state and after any sequence of entry and exit operations whose
entry sizes are strictly positive and whose successfully fetched prices are
strictly positive (failed remote calls leave the state unchanged). -/
theorem c9_position_invariant (ops : List StratOp)
    (h : ∀ op ∈ ops, validOpB op = true) :
    positionInv initialState ∧ positionInv (runOps initialState ops) :=
  ⟨Iff.rfl, (runOps_preserves ops initialState h ⟨le_refl 0, Iff.rfl⟩).2⟩

/-- Witness for C9: a successful size-40 entry at price 5 followed by a
successful exit keeps the invariant. -/
theorem c9_position_invariant_witness :
    positionInv (runOps initialState
      [.enter (.ok 5) (.ok ()) "buy" 40, .exitOp (.ok ())]) :=
  (c9_position_invariant [.enter (.ok 5) (.ok ()) "buy" 40, .exitOp (.ok ())]
    (by decide)).2

/-- Claim C10: check_exit_conditions never reads its price-history argument:
for any two histories the exit decision is identical. -/
theorem c10_exit_ignores_history (cfg : Config) (st : PState)
    (p1 p2 : List Rat) (price : Rat) :
    check_exit_conditions cfg st p1 price = check_exit_conditions cfg st p2 price :=
  rfl

/-- Witness for C10: a populated history and an empty history give the same
exit decision at position {40, 100}, price 97. -/
theorem c10_exit_ignores_history_witness :
    check_exit_conditions defaultConfig ⟨40, 100⟩ [1, 2, 3] 97 =
      check_exit_conditions defaultConfig ⟨40, 100⟩ [] 97 :=
  c10_exit_ignores_history defaultConfig ⟨40, 100⟩ [1, 2, 3] [] 97
